import Mathlib

/-!
Verification of the Gallery Controller of `galleray.py`.

The Python program is a single-threaded Qt application; all Controller
operations run synchronously.  We embed the Controller state
(`GalleryApp`'s fields plus the view-facing widget state the operations
mutate) as a Lean structure `GState`, and each operation as a pure
function.  External collaborators (directory listing, file metadata,
the confirmation dialog, success of `os.remove`) are passed in as
explicit arguments.  A Python exception that escapes an operation
(e.g. `IndexError` from `self.images[self.current_index]`, or an
`OSError` from `os.listdir`) is modelled as `Except.error`, carrying
the object state at the moment the exception propagates (Python leaves
partial mutations in place).  `current_index` is modelled as `Nat`:
every assignment in the source produces a non-negative value
(it starts at 0, is set to list indices, and is decremented only under
a `> 0` guard), and the guard `current_index < len(images) - 1`
coincides with the `Nat`-subtraction reading in all reachable cases
(for `len = 0` both sides of the comparison make the guard false).
-/

namespace Galleray

abbrev Err := String

/-- `SUPPORTED_FORMATS` from galleray.py line 16. -/
def SUPPORTED_FORMATS : List String :=
  [".jpg", ".jpeg", ".png", ".gif", ".bmp", ".webp", ".tiff", ".tif"]

/-- `MAX_RECENT_DIRS` from galleray.py line 17. -/
def MAX_RECENT_DIRS : Nat := 15

/-- Characters after the last `/` (tail-recursive over the char list). -/
def basenameChars : List Char → List Char → List Char
  | [], acc => acc
  | c :: cs, acc => if c = '/' then basenameChars cs [] else basenameChars cs (acc ++ [c])

/-- `os.path.basename`: the part of the path after the last `/`. -/
def basename (p : String) : String :=
  (basenameChars p.toList []).asString

/-- Index of the last `.` in a string, if any. -/
def rfindDot (name : String) : Option Nat :=
  (name.toList.reverse.findIdx? (· == '.')).map (fun j => name.length - 1 - j)

/-- `pathlib.Path(f).suffix`: the final extension including the dot;
empty when the name has no dot, starts with its only dot, or ends in a dot. -/
def pathSuffix (f : String) : String :=
  let name := basename f
  match rfindDot name with
  | some i => if 0 < i ∧ i < name.length - 1 then (name.toList.drop i).asString else ""
  | none => ""

/-- ASCII lower-casing of one character (`str.lower` on the ASCII names
this program handles). -/
def lowerChar (c : Char) : Char :=
  if 'A' ≤ c ∧ c ≤ 'Z' then Char.ofNat (c.toNat + 32) else c

/-- `str.lower`. -/
def lowerStr (s : String) : String :=
  (s.toList.map lowerChar).asString

/-- Lexicographic (code-point) string `≤` as a Bool (Python `str`
comparison). -/
def charListLe : List Char → List Char → Bool
  | [], _ => true
  | _ :: _, [] => false
  | a :: as, b :: bs => if a < b then true else if b < a then false else charListLe as bs

/-- Python `str` `≤`. -/
def strLe (a b : String) : Bool :=
  charListLe a.toList b.toList

/-- Insert `a` before the first element `b` with `le a b`. -/
def orderedInsertB (le : α → α → Bool) (a : α) : List α → List α
  | [] => [a]
  | b :: l => if le a b then a :: b :: l else b :: orderedInsertB le a l

/-- Stable insertion sort; models Python's stable `sorted` (for a total
preorder `le`, any two stable sorts agree). -/
def insertionSortB (le : α → α → Bool) : List α → List α
  | [] => []
  | a :: l => orderedInsertB le a (insertionSortB le l)

/-- The metadata key of a path, once all key reads are known to succeed. -/
def keyVal (f : String → Except Err Int) (p : String) : Int :=
  ((f p).toOption).getD 0

/-- `GalleryApp.sort_images` (lines 464-477).  `mtime`/`size` model
`os.path.getmtime`/`os.path.getsize`, which can raise `OSError`; CPython's
`sorted` computes the key of each element in list order and propagates the
first failure, which we model with `mapM` before sorting.
`reverse=True` is a stable descending sort, i.e. a stable sort by the
flipped key comparison. -/
def sort_images (mtime size : String → Except Err Int) (method : String)
    (image_paths : List String) : Except Err (List String) :=
  if method = "name_asc" then
    .ok (insertionSortB (fun p q => strLe (lowerStr (basename p)) (lowerStr (basename q))) image_paths)
  else if method = "name_desc" then
    .ok (insertionSortB (fun p q => strLe (lowerStr (basename q)) (lowerStr (basename p))) image_paths)
  else if method = "date_newest" then
    match image_paths.mapM mtime with
    | .error e => .error e
    | .ok _ => .ok (insertionSortB (fun p q => decide (keyVal mtime q ≤ keyVal mtime p)) image_paths)
  else if method = "date_oldest" then
    match image_paths.mapM mtime with
    | .error e => .error e
    | .ok _ => .ok (insertionSortB (fun p q => decide (keyVal mtime p ≤ keyVal mtime q)) image_paths)
  else if method = "size_largest" then
    match image_paths.mapM size with
    | .error e => .error e
    | .ok _ => .ok (insertionSortB (fun p q => decide (keyVal size q ≤ keyVal size p)) image_paths)
  else if method = "size_smallest" then
    match image_paths.mapM size with
    | .error e => .error e
    | .ok _ => .ok (insertionSortB (fun p q => decide (keyVal size p ≤ keyVal size q)) image_paths)
  else .ok image_paths

/-- The Controller state: `GalleryApp`'s session fields together with the
view-facing widget state its operations mutate (label texts, enabled flags,
list/grid contents, the stacked-widget page).  `last_warning` records the
message of the most recent `QMessageBox.warning` dialog. -/
structure GState where
  images : List String
  current_index : Nat
  current_view : String
  current_folder : Option String
  sort_method : String
  recent_dirs : List String
  counter_text : String
  filename_text : String
  image_text : String
  prev_enabled : Bool
  next_enabled : Bool
  delete_enabled : Bool
  magnified_name : String
  magnified_text : String
  list_items : List String
  grid_items : List String
  stack_index : Nat
  last_warning : Option Err
deriving Repr, DecidableEq

/-- State after `__init__`/`init_ui`: empty images, index 0, gallery view,
persisted recent dirs (truncated to the bound, line 135) and sort method,
navigation and delete buttons disabled (lines 271, 292, 297). -/
def init_state (recent : List String) (sortMethod : String) : GState :=
  { images := []
    current_index := 0
    current_view := "gallery"
    current_folder := none
    sort_method := sortMethod
    recent_dirs := recent.take MAX_RECENT_DIRS
    counter_text := ""
    filename_text := ""
    image_text := "Select a folder to view images"
    prev_enabled := false
    next_enabled := false
    delete_enabled := false
    magnified_name := ""
    magnified_text := "Hover over a thumbnail"
    list_items := []
    grid_items := []
    stack_index := 0
    last_warning := none }

/-- Items shown by `populate_list` (lines 528-533). -/
def mk_list_items (images : List String) : List String :=
  images.enum.map (fun ip => toString (ip.1 + 1) ++ ". " ++ basename ip.2)

/-- `GalleryApp.populate_list` (lines 528-533). -/
def populate_list (s : GState) : GState :=
  { s with list_items := mk_list_items s.images }

/-- `GalleryApp.populate_grid` (lines 544-551): one thumbnail per image. -/
def populate_grid (s : GState) : GState :=
  { s with grid_items := s.images }

/-- `GalleryApp.update_nav_state` (lines 588-592). -/
def update_nav_state (s : GState) : GState :=
  let has_images := !s.images.isEmpty
  { s with
    prev_enabled := has_images && decide (0 < s.current_index)
    next_enabled := has_images && decide (s.current_index < s.images.length - 1)
    delete_enabled := has_images }

/-- `GalleryApp.show_image` (lines 569-586).  Returns early when `images`
is empty; otherwise `self.images[self.current_index]` raises `IndexError`
when the index is out of range (modelled as `Except.error`). -/
def show_image (s : GState) : Except (GState × Err) GState :=
  if s.images.isEmpty then .ok s
  else
    match s.images[s.current_index]? with
    | none => .error (s, "IndexError")
    | some path =>
      .ok (update_nav_state
        { s with
          counter_text := toString (s.current_index + 1) ++ " / " ++ toString s.images.length
          filename_text := basename path })

/-- `GalleryApp.show_magnified` (lines 553-562), entered on thumbnail hover. -/
def show_magnified (s : GState) (path : String) (index : Nat) : GState :=
  { s with magnified_name := toString (index + 1) ++ ". " ++ basename path }

/-- `GalleryApp.hide_magnified` (lines 564-567), on hover leave. -/
def hide_magnified (s : GState) : GState :=
  { s with magnified_text := "Hover over a thumbnail", magnified_name := "" }

/-- `GalleryApp.add_recent_dir` (lines 140-146): remove an existing
occurrence (Python `list.remove` drops the first one), insert at the
front, truncate to the bound. -/
def add_recent_dir (s : GState) (folder : String) : GState :=
  let r := if s.recent_dirs.contains folder then s.recent_dirs.erase folder else s.recent_dirs
  { s with recent_dirs := (folder :: r).take MAX_RECENT_DIRS }

/-- `GalleryApp.load_images` (lines 499-526).  `listing` models
`os.listdir(folder)`, which can raise `OSError`; the raise happens after
`self.current_folder` has already been assigned (line 500), so the error
state carries that partial mutation.  Note the empty branch disables only
the prev/next buttons, not the delete button. -/
def load_images (s : GState) (folder : String) (listing : Except Err (List String))
    (mtime size : String → Except Err Int) (add_to_recent : Bool) :
    Except (GState × Err) GState :=
  let s0 := { s with current_folder := some folder }
  match listing with
  | .error e => .error (s0, e)
  | .ok files =>
    match sort_images mtime size s0.sort_method
        ((files.filter (fun f => SUPPORTED_FORMATS.contains (lowerStr (pathSuffix f)))).map
          (fun f => folder ++ "/" ++ f)) with
    | .error e => .error (s0, e)
    | .ok sortedPaths =>
      let s1 := { s0 with images := sortedPaths, current_index := 0 }
      let s2 := if add_to_recent then add_recent_dir s1 folder else s1
      if s2.images.isEmpty then
        .ok { s2 with
              image_text := "No images found in folder"
              counter_text := ""
              filename_text := ""
              prev_enabled := false
              next_enabled := false
              list_items := []
              grid_items := [] }
      else
        match show_image s2 with
        | .error e => .error e
        | .ok s3 =>
          let s4 := populate_grid (populate_list (update_nav_state s3))
          .ok { s4 with counter_text := toString s4.images.length ++ " images" }

/-- `GalleryApp.set_sort_method` (lines 452-462): store the method, then
re-load the current folder (Python truthiness: `None` and `""` both skip)
with `add_to_recent=False`. -/
def set_sort_method (s : GState) (method : String) (listing : Except Err (List String))
    (mtime size : String → Except Err Int) : Except (GState × Err) GState :=
  let s0 := { s with sort_method := method }
  match s0.current_folder with
  | none => .ok s0
  | some folder =>
    if folder = "" then .ok s0
    else load_images s0 folder listing mtime size false

/-- `GalleryApp.set_view_mode` (lines 479-492). -/
def set_view_mode (s : GState) (mode : String) : Except (GState × Err) GState :=
  let s0 := { s with current_view := mode }
  if mode = "gallery" then
    let s1 := { s0 with stack_index := 0 }
    if s1.images.isEmpty then .ok s1 else show_image s1
  else if mode = "list" then .ok { s0 with stack_index := 1 }
  else if mode = "grid" then .ok { s0 with stack_index := 2 }
  else .ok s0

/-- Selection: `ThumbnailLabel.mousePressEvent` (lines 110-114) and
`GalleryApp.list_item_clicked` (lines 535-537) both assign
`current_index` unconditionally and switch to the gallery view. -/
def select (s : GState) (index : Nat) : Except (GState × Err) GState :=
  set_view_mode { s with current_index := index } "gallery"

/-- `GalleryApp.next_image` (lines 636-639). -/
def next_image (s : GState) : Except (GState × Err) GState :=
  if s.current_index < s.images.length - 1 then
    show_image { s with current_index := s.current_index + 1 }
  else .ok s

/-- `GalleryApp.prev_image` (lines 631-634). -/
def prev_image (s : GState) : Except (GState × Err) GState :=
  if 0 < s.current_index then
    show_image { s with current_index := s.current_index - 1 }
  else .ok s

/-- `GalleryApp.delete_current_image` (lines 594-629).  `confirm` is the
answer of the `QMessageBox.question` dialog; `remove_ok` tells whether
`os.remove` succeeds (on failure it raises `OSError` before any mutation,
which the `except` clause catches, showing a warning).  The path read
`self.images[self.current_index]` happens before the dialog and raises
`IndexError` if the index is out of range. -/
def delete_current_image (s : GState) (confirm remove_ok : Bool) :
    Except (GState × Err) GState :=
  if s.images.isEmpty then .ok s
  else
    match s.images[s.current_index]? with
    | none => .error (s, "IndexError")
    | some _path =>
      if confirm then
        if remove_ok then
          let s1 := { s with images := s.images.eraseIdx s.current_index }
          if s1.images.isEmpty then
            .ok (populate_grid (populate_list (update_nav_state
              { s1 with
                image_text := "No images in folder"
                counter_text := ""
                filename_text := "" })))
          else
            let s2 := if s1.images.length ≤ s1.current_index then
                { s1 with current_index := s1.images.length - 1 }
              else s1
            match show_image s2 with
            | .error e => .error e
            | .ok s3 => .ok (populate_grid (populate_list s3))
        else
          .ok { s with last_warning := some "Could not delete file" }
      else .ok s

/-- The Controller operations of spec §4.2, with their external inputs. -/
inductive Op where
  | load (folder : String) (listing : Except Err (List String))
      (mtime size : String → Except Err Int) (addToRecent : Bool)
  | setSort (method : String) (listing : Except Err (List String))
      (mtime size : String → Except Err Int)
  | setView (mode : String)
  | sel (index : Nat)
  | next
  | prev
  | hoverEnter (path : String) (index : Nat)
  | hoverLeave
  | del (confirm removeOk : Bool)

/-- Run one Controller operation. -/
def run (op : Op) (s : GState) : Except (GState × Err) GState :=
  match op with
  | .load folder listing mt sz addR => load_images s folder listing mt sz addR
  | .setSort m listing mt sz => set_sort_method s m listing mt sz
  | .setView m => set_view_mode s m
  | .sel i => select s i
  | .next => next_image s
  | .prev => prev_image s
  | .hoverEnter p i => .ok (show_magnified s p i)
  | .hoverLeave => .ok (hide_magnified s)
  | .del c r => delete_current_image s c r

/-- The state an operation leaves behind: its result on normal return, or
the partially mutated object when an exception propagates. -/
def resultState : Except (GState × Err) GState → GState
  | .ok s => s
  | .error (s, _) => s

/-- The bounds invariant of spec §3 and §8 (`0 ≤` is automatic for `Nat`). -/
def bounds_inv (s : GState) : Prop :=
  s.images ≠ [] → s.current_index < s.images.length

/-- A constant metadata reader that always succeeds. -/
def mtConst : String → Except Err Int := fun _ => .ok 0

-- Concrete example states used by witnesses and counterexamples.

/-- A fresh session. -/
def exInit : GState := init_state [] "name_asc"

/-- A session with two images, index 0. -/
def exTwo : GState := { exInit with images := ["/a/a.png", "/a/b.png"] }

/-- A session with three images, index 0. -/
def exThree : GState :=
  { exInit with images := ["/a/a.png", "/a/b.png", "/a/c.png"], delete_enabled := true }

/-- A session with a single image. -/
def exOne : GState := { exInit with images := ["/a/a.png"], delete_enabled := true }

/-- The session after loading a folder that contains one image. -/
def exLoaded : GState :=
  resultState (load_images exInit "/a" (.ok ["x.png"]) mtConst mtConst true)

/-- The session after then loading a folder with no image files. -/
def exAfterEmptyLoad : GState :=
  resultState (load_images exLoaded "/b" (.ok []) mtConst mtConst true)

/-- A one-image session whose sort method reads file metadata. -/
def exOneDate : GState := { exOne with sort_method := "date_newest" }

/-- A metadata reader that always fails. -/
def mtFail : String → Except Err Int := fun _ => .error "EACCES"

-- Helper lemmas.

lemma isEmpty_false_of_ne_nil {α} {l : List α} (h : l ≠ []) : l.isEmpty = false := by
  cases l with
  | nil => exact absurd rfl h
  | cons a t => rfl

lemma getElem?_exists_of_lt {α} {l : List α} {n : Nat} (h : n < l.length) :
    ∃ a, l[n]? = some a :=
  ⟨l[n], List.getElem?_eq_getElem h⟩

lemma lt_of_getElem?_some {α} {l : List α} {n : Nat} {a : α} (h : l[n]? = some a) :
    n < l.length := by
  by_contra hn
  push_neg at hn
  rw [List.getElem?_eq_none hn] at h
  cases h

/-- Fields preserved by `show_image` on normal return, and the bound its
indexing imposes. -/
lemma show_image_ok {s s' : GState} (h : show_image s = .ok s') :
    s'.images = s.images ∧ s'.current_index = s.current_index ∧
    s'.sort_method = s.sort_method ∧ s'.recent_dirs = s.recent_dirs ∧
    s'.current_folder = s.current_folder ∧
    (s.images ≠ [] → s.current_index < s.images.length) ∧
    s'.current_view = s.current_view := by
  unfold show_image at h
  by_cases he : s.images = []
  · rw [he] at h
    simp at h
    subst h
    exact ⟨rfl, rfl, rfl, rfl, rfl, fun hh => absurd he hh, rfl⟩
  · rw [isEmpty_false_of_ne_nil he] at h
    simp at h
    cases hg : s.images[s.current_index]? with
    | none => rw [hg] at h; cases h
    | some a =>
      rw [hg] at h
      simp at h
      subst h
      exact ⟨rfl, rfl, rfl, rfl, rfl, fun _ => lt_of_getElem?_some hg, rfl⟩

/-- `show_image` returns normally when the index is in range, preserving
the session fields. -/
lemma show_image_ok_of_lt {s : GState} (h : s.current_index < s.images.length) :
    ∃ t, show_image s = .ok t ∧ t.images = s.images ∧ t.current_index = s.current_index ∧
      t.sort_method = s.sort_method ∧ t.recent_dirs = s.recent_dirs ∧
      t.current_folder = s.current_folder ∧ t.current_view = s.current_view := by
  have hne : s.images ≠ [] := by
    intro h0
    rw [h0] at h
    exact absurd h (by simp)
  obtain ⟨a, ha⟩ := getElem?_exists_of_lt h
  refine ⟨update_nav_state
      { s with
        counter_text := toString (s.current_index + 1) ++ " / " ++ toString s.images.length
        filename_text := basename a }, ?_, rfl, rfl, rfl, rfl, rfl, rfl⟩
  rw [show_image, isEmpty_false_of_ne_nil hne]
  simp [ha]

lemma eq_nil_of_isEmpty {α} {l : List α} (h : l.isEmpty = true) : l = [] := by
  cases l with
  | nil => rfl
  | cons a t => cases h

/-- The bounds invariant transfers along equal `images`/`current_index`. -/
lemma bounds_inv_of_fields {s t : GState} (himg : t.images = s.images)
    (hcur : t.current_index = s.current_index) (h : bounds_inv s) : bounds_inv t := by
  intro hne
  rw [himg, hcur]
  exact h (himg ▸ hne)

/-- Sorting an empty path list always succeeds with the empty list. -/
lemma sort_images_nil (mt sz : String → Except Err Int) (m : String) :
    sort_images mt sz m [] = .ok [] := by
  rw [sort_images]
  repeat' split
  all_goals simp_all [insertionSortB, List.mapM.loop, pure, Except.pure]

/-- Any normal return of `load_images` has `current_index = 0` and the
move-to-front recent-folder update (exactly when `add_to_recent`). -/
lemma load_images_ok {s s' : GState} {folder : String} {listing : Except Err (List String)}
    {mt sz : String → Except Err Int} {b : Bool}
    (h : load_images s folder listing mt sz b = .ok s') :
    s'.current_index = 0 ∧
    s'.recent_dirs = (if b then
        (folder :: (if s.recent_dirs.contains folder then s.recent_dirs.erase folder
          else s.recent_dirs)).take MAX_RECENT_DIRS
      else s.recent_dirs) := by
  cases listing with
  | error e =>
    rw [load_images] at h
    cases h
  | ok files =>
    cases b with
    | false =>
      simp only [load_images, Bool.false_eq_true, if_false] at h
      split at h
      next e heq => cases h
      next sortedPaths heq =>
        split at h
        next hempty =>
          simp only [Except.ok.injEq] at h
          subst h
          refine ⟨rfl, ?_⟩
          simp
        next hne =>
          split at h
          next e heq2 => cases h
          next s3 heq2 =>
            simp only [Except.ok.injEq] at h
            subst h
            obtain ⟨_, hcur, _, hrec, _, _⟩ := show_image_ok heq2
            refine ⟨?_, ?_⟩ <;>
              simp [populate_grid, populate_list, update_nav_state, hcur, hrec]
    | true =>
      simp only [load_images, add_recent_dir, if_true] at h
      split at h
      next e heq => cases h
      next sortedPaths heq =>
        split at h
        next hempty =>
          simp only [Except.ok.injEq] at h
          subst h
          refine ⟨rfl, ?_⟩
          simp
        next hne =>
          split at h
          next e heq2 => cases h
          next s3 heq2 =>
            simp only [Except.ok.injEq] at h
            subst h
            obtain ⟨_, hcur, _, hrec, _, _⟩ := show_image_ok heq2
            refine ⟨?_, ?_⟩ <;>
              simp [populate_grid, populate_list, update_nav_state, hcur, hrec]

/-- C10: with non-empty images, answering No to the confirmation dialog in
`delete_current_image` is a complete no-op: the result is the unchanged
state regardless of whether the file deletion would have succeeded, and no
deletion is requested (the outcome does not depend on `remove_ok`). -/
theorem C10_confirm_no_noop (s : GState) (r : Bool) (hne : s.images ≠ [])
    (hidx : s.current_index < s.images.length) :
    delete_current_image s false r = .ok s := by
  obtain ⟨a, ha⟩ := getElem?_exists_of_lt hidx
  rw [delete_current_image, isEmpty_false_of_ne_nil hne]
  simp [ha]

/-- C10 witness. -/
theorem C10_confirm_no_noop_witness :
    delete_current_image exTwo false true = .ok exTwo :=
  C10_confirm_no_noop exTwo true (by decide) (by decide)

/-- C3: with non-empty images, if the file deletion fails the error is
reported to the user (a warning dialog) and the state is exactly the
pre-attempt state apart from that report: in particular `images` and
`current_index` are unchanged (no partial mutation). -/
theorem C3_delete_failure_rollback (s : GState) (hne : s.images ≠ [])
    (hidx : s.current_index < s.images.length) :
    ∃ s', delete_current_image s true false = .ok s' ∧
      s' = { s with last_warning := some "Could not delete file" } ∧
      s'.last_warning = some "Could not delete file" ∧
      s'.images = s.images ∧ s'.current_index = s.current_index := by
  obtain ⟨a, ha⟩ := getElem?_exists_of_lt hidx
  refine ⟨_, ?_, rfl, rfl, rfl, rfl⟩
  rw [delete_current_image, isEmpty_false_of_ne_nil hne]
  simp [ha]

/-- C3 witness. -/
theorem C3_delete_failure_rollback_witness :
    ∃ s', delete_current_image exTwo true false = .ok s' ∧
      s' = { exTwo with last_warning := some "Could not delete file" } ∧
      s'.last_warning = some "Could not delete file" ∧
      s'.images = exTwo.images ∧ s'.current_index = exTwo.current_index :=
  C3_delete_failure_rollback exTwo (by decide) (by decide)

/-- C7: `prev_image` at index 0 is a no-op and `next_image` at the last
index is a no-op (clamped, no wraparound); from any index with a
successor, `next_image` followed by `prev_image` restores the original
`current_index` (and `images`). -/
theorem C7_nav_clamp_inverse (s : GState) :
    (s.current_index = 0 → prev_image s = .ok s) ∧
    (s.images ≠ [] → s.current_index = s.images.length - 1 → next_image s = .ok s) ∧
    (s.current_index + 1 < s.images.length →
      ∃ s1 s2, next_image s = .ok s1 ∧ prev_image s1 = .ok s2 ∧
        s2.current_index = s.current_index ∧ s2.images = s.images) := by
  refine ⟨?_, ?_, ?_⟩
  · intro h0
    rw [prev_image, h0]
    simp
  · intro _ hlast
    rw [next_image, hlast]
    simp
  · intro hmid
    have hguard : s.current_index < s.images.length - 1 := by omega
    obtain ⟨s1, h1, h1img, h1cur, _, _, _⟩ :=
      @show_image_ok_of_lt { s with current_index := s.current_index + 1 }
        (by simpa using hmid)
    have hnext : next_image s = .ok s1 := by
      rw [next_image, if_pos hguard]
      exact h1
    have h1pos : 0 < s1.current_index := by
      rw [h1cur]; exact Nat.succ_pos _
    obtain ⟨s2, h2, h2img, h2cur, _, _, _⟩ :=
      @show_image_ok_of_lt { s1 with current_index := s1.current_index - 1 }
        (by simp [h1img, h1cur]; omega)
    have hprev : prev_image s1 = .ok s2 := by
      rw [prev_image, if_pos h1pos]
      exact h2
    refine ⟨s1, s2, hnext, hprev, ?_, ?_⟩
    · rw [h2cur]
      simp [h1cur]
    · rw [h2img]
      simp [h1img]

/-- C7 witness. -/
theorem C7_nav_clamp_inverse_witness :
    (exTwo.current_index = 0 → prev_image exTwo = .ok exTwo) ∧
    (exTwo.images ≠ [] → exTwo.current_index = exTwo.images.length - 1 →
      next_image exTwo = .ok exTwo) ∧
    (exTwo.current_index + 1 < exTwo.images.length →
      ∃ s1 s2, next_image exTwo = .ok s1 ∧ prev_image s1 = .ok s2 ∧
        s2.current_index = exTwo.current_index ∧ s2.images = exTwo.images) :=
  C7_nav_clamp_inverse exTwo

/-- Fields preserved by `show_image` whether it returns normally or
propagates an `IndexError`. -/
lemma show_image_resultState (s : GState) :
    (resultState (show_image s)).images = s.images ∧
    (resultState (show_image s)).current_index = s.current_index ∧
    (resultState (show_image s)).sort_method = s.sort_method ∧
    (resultState (show_image s)).recent_dirs = s.recent_dirs := by
  rw [show_image]
  by_cases he : s.images = []
  · simp [he, resultState]
  · rw [isEmpty_false_of_ne_nil he]
    cases hg : s.images[s.current_index]? with
    | none => simp [hg, resultState]
    | some a => simp [hg, resultState, update_nav_state]

/-- `set_view_mode` leaves the session fields untouched on both outcomes. -/
lemma set_view_mode_frame (s : GState) (mode : String) :
    (resultState (set_view_mode s mode)).current_index = s.current_index ∧
    (resultState (set_view_mode s mode)).images = s.images ∧
    (resultState (set_view_mode s mode)).sort_method = s.sort_method ∧
    (resultState (set_view_mode s mode)).recent_dirs = s.recent_dirs := by
  simp only [set_view_mode]
  by_cases hg : mode = "gallery"
  · simp only [hg, if_true]
    by_cases he : s.images = []
    · simp [he, resultState]
    · rw [if_neg]
      · obtain ⟨hi, hc, hs, hr⟩ :=
          show_image_resultState { s with current_view := "gallery", stack_index := 0 }
        exact ⟨hc, hi, hs, hr⟩
      · simp [isEmpty_false_of_ne_nil he]
  · by_cases hl : mode = "list" <;> by_cases hgr : mode = "grid" <;>
      simp [hg, hl, hgr, resultState]

/-- C8: `set_view_mode` changes only the view mode: for every state and
every mode argument, `current_index`, `images`, `sort_method` and
`recent_dirs` are unchanged by the call (also when the render step fails). -/
theorem C8_set_view_mode_frame (s : GState) (mode : String) :
    (resultState (set_view_mode s mode)).current_index = s.current_index ∧
    (resultState (set_view_mode s mode)).images = s.images ∧
    (resultState (set_view_mode s mode)).sort_method = s.sort_method ∧
    (resultState (set_view_mode s mode)).recent_dirs = s.recent_dirs :=
  set_view_mode_frame s mode

/-- C2: with non-empty images, a confirmed and successful
`delete_current_image` removes exactly the entry at `current_index`.
If `images` becomes empty, the selection is cleared (index 0 over an empty
list) and the empty state is reported (empty-state text, all controls
disabled).  Otherwise, if the old `current_index` equals the new length
(the deleted entry was last) the index is clamped to `len - 1`; in all
other cases it is unchanged. -/
theorem C2_delete_success (s : GState) (hne : s.images ≠ [])
    (hidx : s.current_index < s.images.length) :
    ∃ s', delete_current_image s true true = .ok s' ∧
      s'.images = s.images.eraseIdx s.current_index ∧
      (s'.images = [] →
        s'.current_index = 0 ∧ s'.image_text = "No images in folder" ∧
        s'.counter_text = "" ∧ s'.filename_text = "" ∧
        s'.prev_enabled = false ∧ s'.next_enabled = false ∧ s'.delete_enabled = false) ∧
      (s'.images ≠ [] →
        (s.current_index = s'.images.length → s'.current_index = s'.images.length - 1) ∧
        (s.current_index ≠ s'.images.length → s'.current_index = s.current_index)) := by
  obtain ⟨a, ha⟩ := getElem?_exists_of_lt hidx
  have hlen : (s.images.eraseIdx s.current_index).length + 1 = s.images.length :=
    List.length_eraseIdx_add_one hidx
  rw [delete_current_image, isEmpty_false_of_ne_nil hne]
  simp only [ha, Bool.false_eq_true, if_false, if_true]
  by_cases h0 : s.images.eraseIdx s.current_index = []
  · have hz : (s.images.eraseIdx s.current_index).length = 0 := by rw [h0]; rfl
    rw [if_pos (by simp [h0])]
    refine ⟨_, rfl, by simp [populate_grid, populate_list, update_nav_state], ?_, ?_⟩
    · intro _
      refine ⟨?_, rfl, rfl, rfl, ?_, ?_, ?_⟩
      · show s.current_index = 0
        omega
      all_goals simp [populate_grid, populate_list, update_nav_state, h0]
    · intro hcontra
      exact absurd (by simp [populate_grid, populate_list, update_nav_state, h0]) hcontra
  · rw [if_neg (by simp [isEmpty_false_of_ne_nil h0])]
    have hpos : 0 < (s.images.eraseIdx s.current_index).length :=
      List.length_pos.mpr h0
    by_cases hcl : (s.images.eraseIdx s.current_index).length ≤ s.current_index
    · rw [if_pos (by simpa using hcl)]
      obtain ⟨s3, h3, h3img, h3cur, _, _, _⟩ :=
        @show_image_ok_of_lt
          { s with images := s.images.eraseIdx s.current_index,
                   current_index := (s.images.eraseIdx s.current_index).length - 1 }
          (by simpa using Nat.sub_lt hpos Nat.one_pos)
      have h3img' : s3.images = s.images.eraseIdx s.current_index := by simpa using h3img
      have h3cur' : s3.current_index = (s.images.eraseIdx s.current_index).length - 1 := by
        simpa using h3cur
      rw [h3]
      refine ⟨_, rfl, by simpa [populate_grid, populate_list] using h3img', ?_, ?_⟩
      · intro hempty
        simp only [populate_grid, populate_list] at hempty
        rw [h3img'] at hempty
        exact absurd hempty h0
      · intro _
        constructor
        · intro _
          simp only [populate_grid, populate_list]
          rw [h3cur', h3img']
        · intro hneq
          refine absurd ?_ hneq
          have hX : (populate_grid (populate_list s3)).images = s.images.eraseIdx s.current_index := by
            simpa [populate_grid, populate_list] using h3img'
          rw [hX]
          omega
    · rw [if_neg (by simpa using hcl)]
      obtain ⟨s3, h3, h3img, h3cur, _, _, _⟩ :=
        @show_image_ok_of_lt
          { s with images := s.images.eraseIdx s.current_index }
          (by simp; omega)
      have h3img' : s3.images = s.images.eraseIdx s.current_index := by simpa using h3img
      have h3cur' : s3.current_index = s.current_index := by simpa using h3cur
      rw [h3]
      refine ⟨_, rfl, by simpa [populate_grid, populate_list] using h3img', ?_, ?_⟩
      · intro hempty
        simp only [populate_grid, populate_list] at hempty
        rw [h3img'] at hempty
        exact absurd hempty h0
      · intro _
        constructor
        · intro heq
          simp only [populate_grid, populate_list] at heq
          rw [h3img'] at heq
          exact absurd heq (by omega)
        · intro _
          simp only [populate_grid, populate_list]
          rw [h3cur']

/-- C2 witness (the spec's scenario: 3 images, delete at the last index). -/
theorem C2_delete_success_witness :
    ∃ s', delete_current_image { exThree with current_index := 2 } true true = .ok s' ∧
      s'.images = ({ exThree with current_index := 2 } : GState).images.eraseIdx
        ({ exThree with current_index := 2 } : GState).current_index ∧
      (s'.images = [] →
        s'.current_index = 0 ∧ s'.image_text = "No images in folder" ∧
        s'.counter_text = "" ∧ s'.filename_text = "" ∧
        s'.prev_enabled = false ∧ s'.next_enabled = false ∧ s'.delete_enabled = false) ∧
      (s'.images ≠ [] →
        (({ exThree with current_index := 2 } : GState).current_index = s'.images.length →
          s'.current_index = s'.images.length - 1) ∧
        (({ exThree with current_index := 2 } : GState).current_index ≠ s'.images.length →
          s'.current_index = ({ exThree with current_index := 2 } : GState).current_index)) :=
  C2_delete_success { exThree with current_index := 2 } (by decide) (by decide)

/-- C9: every normal return of `load_images` leaves `current_index = 0`;
with `add_to_recent = true`, the folder is moved to the front of
`recent_dirs`, duplicates are avoided (distinctness is preserved), and the
list never exceeds `MAX_RECENT_DIRS` entries. -/
theorem C9_load_recent_dirs (s s' : GState) (folder : String)
    (listing : Except Err (List String)) (mt sz : String → Except Err Int) (b : Bool)
    (h : load_images s folder listing mt sz b = .ok s') (hnd : s.recent_dirs.Nodup) :
    s'.current_index = 0 ∧
    (b = true →
      s'.recent_dirs.head? = some folder ∧
      s'.recent_dirs.length ≤ MAX_RECENT_DIRS ∧
      s'.recent_dirs.Nodup) := by
  obtain ⟨hcur, hrec⟩ := load_images_ok h
  refine ⟨hcur, ?_⟩
  intro hb
  subst hb
  rw [hrec]
  simp only [if_true]
  refine ⟨rfl, List.length_take_le _ _, ?_⟩
  apply (List.take_sublist _ _).nodup
  by_cases hc : s.recent_dirs.contains folder = true
  · rw [if_pos hc]
    exact List.nodup_cons.mpr ⟨hnd.not_mem_erase, hnd.erase folder⟩
  · rw [if_neg hc]
    refine List.nodup_cons.mpr ⟨?_, hnd⟩
    have hc' : s.recent_dirs.contains folder = false := by
      simpa using hc
    simpa using hc'

/-- C9 witness. -/
theorem C9_load_recent_dirs_witness :
    exLoaded.current_index = 0 ∧
    (true = true →
      exLoaded.recent_dirs.head? = some "/a" ∧
      exLoaded.recent_dirs.length ≤ MAX_RECENT_DIRS ∧
      exLoaded.recent_dirs.Nodup) :=
  C9_load_recent_dirs exInit exLoaded "/a" (.ok ["x.png"]) mtConst mtConst true rfl
    (by decide)

/-- C6 counterexample: on a one-image session, `select 3` is neither a
no-op nor a bounds-preserving rejection: the operation fails with an index
error after `current_index` has already been set to 3, out of bounds for
the single-element list. -/
theorem C6_select_unchecked_counterexample :
    (select exOne 3).isOk = false ∧
    (resultState (select exOne 3)).current_index = 3 ∧
    (resultState (select exOne 3)).images.length = 1 := by decide

/-- C6 amended: `select` performs no validation.  A valid index
(`index < len(images)`) sets `current_index := index` and switches the view
to Single ("gallery"), as specified; an out-of-range index on a non-empty
list is NOT rejected as a no-op: the unconditional assignment happens first
and the subsequent render raises an uncaught index error, aborting the
operation with `current_index` left out of bounds. -/
theorem C6_select_amended (s : GState) (i : Nat) :
    (i < s.images.length →
      ∃ t, select s i = .ok t ∧ t.current_index = i ∧ t.current_view = "gallery") ∧
    (s.images.length ≤ i → s.images ≠ [] →
      ∃ t e, select s i = .error (t, e) ∧ t.current_index = i ∧
        t.current_view = "gallery") := by
  constructor
  · intro hi
    have hne : s.images ≠ [] := by
      intro h0
      rw [h0] at hi
      exact absurd hi (by simp)
    obtain ⟨t, ht, _, tcur, _, _, _, tview⟩ :=
      @show_image_ok_of_lt
        { s with current_index := i, current_view := "gallery", stack_index := 0 }
        (by simpa using hi)
    refine ⟨t, ?_, by simpa using tcur, by simpa using tview⟩
    rw [select, set_view_mode, if_pos rfl, if_neg (by simp [isEmpty_false_of_ne_nil hne])]
    exact ht
  · intro hle hne
    refine ⟨{ s with current_index := i, current_view := "gallery", stack_index := 0 },
      "IndexError", ?_, rfl, rfl⟩
    rw [select, set_view_mode, if_pos rfl, if_neg (by simp [isEmpty_false_of_ne_nil hne])]
    rw [show_image]
    simp [isEmpty_false_of_ne_nil hne, List.getElem?_eq_none hle]

/-- C6 amended witness. -/
theorem C6_select_amended_witness :
    (1 < exThree.images.length →
      ∃ t, select exThree 1 = .ok t ∧ t.current_index = 1 ∧ t.current_view = "gallery") ∧
    (exThree.images.length ≤ 1 → exThree.images ≠ [] →
      ∃ t e, select exThree 1 = .error (t, e) ∧ t.current_index = 1 ∧
        t.current_view = "gallery") :=
  C6_select_amended exThree 1

/-- Every normal return of `load_images` on a listing with no supported
image files yields the empty-state UI (empty images, empty-state message,
prev/next disabled) — but leaves the delete flag as it was. -/
lemma load_images_empty_result {s : GState} {folder : String} {files : List String}
    {mt sz : String → Except Err Int} {b : Bool}
    (hf : files.filter (fun f => SUPPORTED_FORMATS.contains (lowerStr (pathSuffix f))) = []) :
    ∃ s', load_images s folder (.ok files) mt sz b = .ok s' ∧
      s'.images = [] ∧ s'.image_text = "No images found in folder" ∧
      s'.prev_enabled = false ∧ s'.next_enabled = false ∧
      s'.delete_enabled = s.delete_enabled ∧ s'.counter_text = "" := by
  cases b with
  | false =>
    simp only [load_images, hf, List.map_nil, sort_images_nil, Bool.false_eq_true, if_false,
      List.isEmpty_nil, if_true]
    exact ⟨_, rfl, rfl, rfl, rfl, rfl, rfl, rfl⟩
  | true =>
    simp only [load_images, hf, List.map_nil, sort_images_nil, add_recent_dir,
      List.isEmpty_nil, if_true]
    exact ⟨_, rfl, rfl, rfl, rfl, rfl, rfl, rfl⟩

/-- A failed mtime read makes a date sort fail with that error (the key
of each path is computed in list order, so the first failure propagates,
as in CPython's `sorted`). -/
lemma sort_images_mtime_error {mt sz : String → Except Err Int} {m : String}
    {paths : List String} {e : Err}
    (hm : m = "date_newest" ∨ m = "date_oldest") (h : paths.mapM mt = .error e) :
    sort_images mt sz m paths = .error e := by
  rcases hm with hm | hm <;> subst hm
  · rw [sort_images, if_neg (by decide), if_neg (by decide), if_pos rfl, h]
  · rw [sort_images, if_neg (by decide), if_neg (by decide), if_neg (by decide),
      if_pos rfl, h]

/-- A failed size read makes a size sort fail with that error. -/
lemma sort_images_size_error {mt sz : String → Except Err Int} {m : String}
    {paths : List String} {e : Err}
    (hm : m = "size_largest" ∨ m = "size_smallest") (h : paths.mapM sz = .error e) :
    sort_images mt sz m paths = .error e := by
  rcases hm with hm | hm <;> subst hm
  · rw [sort_images, if_neg (by decide), if_neg (by decide), if_neg (by decide),
      if_neg (by decide), if_pos rfl, h]
  · rw [sort_images, if_neg (by decide), if_neg (by decide), if_neg (by decide),
      if_neg (by decide), if_neg (by decide), if_pos rfl, h]

/-- C4 counterexample: an inaccessible folder passed to `load_images` is
not surfaced as an empty-state message — the listing error propagates out
of the Controller (with `current_folder` already mutated). -/
theorem C4_listing_error_counterexample :
    load_images exInit "/photos" (.error "PermissionError") mtConst mtConst true =
      .error ({ exInit with current_folder := some "/photos" }, "PermissionError") ∧
    (load_images exInit "/photos" (.error "PermissionError") mtConst mtConst true).isOk
      = false := by
  exact ⟨rfl, rfl⟩

/-- C4 amended: only the file-deletion error is recovered locally and
turned into a user-visible message; a directory-listing failure in
`load_images` propagates uncaught (after `current_folder` is assigned),
and likewise a metadata (mtime/size) read failure during a date/size sort
propagates uncaught out of `load_images`.  An empty (successfully listed)
folder is indeed surfaced as an empty-state message with prev/next
navigation disabled. -/
theorem C4_error_handling_amended (s : GState) (folder e : String) (files : List String)
    (mt sz : String → Except Err Int) :
    (load_images s folder (.error e) mt sz true =
      .error ({ s with current_folder := some folder }, e)) ∧
    (files.filter (fun f => SUPPORTED_FORMATS.contains (lowerStr (pathSuffix f))) = [] →
      ∃ s', load_images s folder (.ok files) mt sz true = .ok s' ∧
        s'.images = [] ∧ s'.image_text = "No images found in folder" ∧
        s'.prev_enabled = false ∧ s'.next_enabled = false) ∧
    (s.images ≠ [] → s.current_index < s.images.length →
      ∃ s', delete_current_image s true false = .ok s' ∧
        s'.last_warning = some "Could not delete file" ∧
        s'.images = s.images ∧ s'.current_index = s.current_index) ∧
    ((s.sort_method = "date_newest" ∨ s.sort_method = "date_oldest") →
      ((files.filter (fun f => SUPPORTED_FORMATS.contains (lowerStr (pathSuffix f)))).map
          (fun f => folder ++ "/" ++ f)).mapM mt = .error e →
      load_images s folder (.ok files) mt sz true =
        .error ({ s with current_folder := some folder }, e)) ∧
    ((s.sort_method = "size_largest" ∨ s.sort_method = "size_smallest") →
      ((files.filter (fun f => SUPPORTED_FORMATS.contains (lowerStr (pathSuffix f)))).map
          (fun f => folder ++ "/" ++ f)).mapM sz = .error e →
      load_images s folder (.ok files) mt sz true =
        .error ({ s with current_folder := some folder }, e)) := by
  refine ⟨rfl, ?_, ?_, ?_, ?_⟩
  · intro hf
    obtain ⟨s', h, h1, h2, h3, h4, _, _⟩ :=
      @load_images_empty_result s folder files mt sz true hf
    exact ⟨s', h, h1, h2, h3, h4⟩
  · intro hne hidx
    obtain ⟨a, ha⟩ := getElem?_exists_of_lt hidx
    refine ⟨{ s with last_warning := some "Could not delete file" }, ?_, rfl, rfl, rfl⟩
    rw [delete_current_image, isEmpty_false_of_ne_nil hne]
    simp [ha]
  · intro hm hmap
    have hs := @sort_images_mtime_error mt sz _ _ _ hm hmap
    simp only [load_images, hs]
  · intro hm hmap
    have hs := @sort_images_size_error mt sz _ _ _ hm hmap
    simp only [load_images, hs]

/-- C4 amended witness (the metadata-failure conjunct fires: the session
sorts by date and every mtime read fails). -/
theorem C4_error_handling_amended_witness :
    (load_images exOneDate "/d" (.error "EACCES") mtFail mtConst true =
      .error ({ exOneDate with current_folder := some "/d" }, "EACCES")) ∧
    (["x.png"].filter
        (fun f => SUPPORTED_FORMATS.contains (lowerStr (pathSuffix f))) = [] →
      ∃ s', load_images exOneDate "/d" (.ok ["x.png"]) mtFail mtConst true = .ok s' ∧
        s'.images = [] ∧ s'.image_text = "No images found in folder" ∧
        s'.prev_enabled = false ∧ s'.next_enabled = false) ∧
    (exOneDate.images ≠ [] → exOneDate.current_index < exOneDate.images.length →
      ∃ s', delete_current_image exOneDate true false = .ok s' ∧
        s'.last_warning = some "Could not delete file" ∧
        s'.images = exOneDate.images ∧ s'.current_index = exOneDate.current_index) ∧
    ((exOneDate.sort_method = "date_newest" ∨ exOneDate.sort_method = "date_oldest") →
      ((["x.png"].filter (fun f => SUPPORTED_FORMATS.contains (lowerStr (pathSuffix f)))).map
          (fun f => "/d" ++ "/" ++ f)).mapM mtFail = .error "EACCES" →
      load_images exOneDate "/d" (.ok ["x.png"]) mtFail mtConst true =
        .error ({ exOneDate with current_folder := some "/d" }, "EACCES")) ∧
    ((exOneDate.sort_method = "size_largest" ∨ exOneDate.sort_method = "size_smallest") →
      ((["x.png"].filter (fun f => SUPPORTED_FORMATS.contains (lowerStr (pathSuffix f)))).map
          (fun f => "/d" ++ "/" ++ f)).mapM mtConst = .error "EACCES" →
      load_images exOneDate "/d" (.ok ["x.png"]) mtFail mtConst true =
        .error ({ exOneDate with current_folder := some "/d" }, "EACCES")) :=
  C4_error_handling_amended exOneDate "/d" "EACCES" ["x.png"] mtFail mtConst

/-- C5: the code bug at the failing input.  After a load that found one
image the delete button is enabled; loading a folder with no image files
then empties `images` and disables prev/next, but the empty branch of
`load_images` never disables the delete button, which stays enabled —
contradicting the claim that after an empty load all navigation and
delete controls report disabled. -/
theorem C5_delete_button_not_disabled_on_empty_load :
    exLoaded.delete_enabled = true ∧
    exAfterEmptyLoad.images = [] ∧
    exAfterEmptyLoad.prev_enabled = false ∧
    exAfterEmptyLoad.next_enabled = false ∧
    exAfterEmptyLoad.delete_enabled = true := by decide

/-- C1: the bounds invariant `0 ≤ current_index < len(images)` (for
non-empty `images`) is preserved by every Controller operation of §4.2
that returns normally: `load_images`, `set_sort_method`, `set_view_mode`,
`select`, `next_image`, `prev_image`, hover enter/leave, and
`delete_current_image`.  (An operation that raises — e.g. `select` with an
out-of-range index — has no post-state: the exception aborts it.) -/
theorem C1_bounds_invariant (op : Op) (s s' : GState)
    (hinv : bounds_inv s) (h : run op s = .ok s') : bounds_inv s' := by
  cases op with
  | load folder listing mt sz addR =>
    simp only [run] at h
    obtain ⟨hcur, _⟩ := load_images_ok h
    intro hne
    rw [hcur]
    exact List.length_pos.mpr hne
  | setSort m listing mt sz =>
    simp only [run, set_sort_method] at h
    split at h
    next heq =>
      simp only [Except.ok.injEq] at h
      subst h
      exact bounds_inv_of_fields rfl rfl hinv
    next folder heq =>
      split at h
      next =>
        simp only [Except.ok.injEq] at h
        subst h
        exact bounds_inv_of_fields rfl rfl hinv
      next =>
        obtain ⟨hcur, _⟩ := load_images_ok h
        intro hne
        rw [hcur]
        exact List.length_pos.mpr hne
  | setView m =>
    simp only [run] at h
    have hf := set_view_mode_frame s m
    rw [h] at hf
    simp only [resultState] at hf
    obtain ⟨hcur, himg, _, _⟩ := hf
    exact bounds_inv_of_fields himg hcur hinv
  | sel i =>
    simp only [run, select, set_view_mode, if_true] at h
    by_cases he : s.images = []
    · rw [if_pos (by simp [he])] at h
      simp only [Except.ok.injEq] at h
      subst h
      intro hne
      exact absurd he hne
    · rw [if_neg (by simp [isEmpty_false_of_ne_nil he])] at h
      obtain ⟨himg, hcur, _, _, _, hbound, _⟩ := show_image_ok h
      intro _
      rw [hcur, himg]
      exact hbound he
  | next =>
    simp only [run, next_image] at h
    split at h
    next hguard =>
      obtain ⟨himg, hcur, _, _, _, _, _⟩ := show_image_ok h
      intro _
      rw [hcur, himg]
      show s.current_index + 1 < s.images.length
      omega
    next =>
      simp only [Except.ok.injEq] at h
      subst h
      exact hinv
  | prev =>
    simp only [run, prev_image] at h
    split at h
    next hguard =>
      obtain ⟨himg, hcur, _, _, _, _, _⟩ := show_image_ok h
      intro hne
      have hne' : s.images ≠ [] := fun h0 => hne (by rw [himg]; exact h0)
      have hlt := hinv hne'
      rw [hcur, himg]
      show s.current_index - 1 < s.images.length
      omega
    next =>
      simp only [Except.ok.injEq] at h
      subst h
      exact hinv
  | hoverEnter p i =>
    simp only [run, Except.ok.injEq] at h
    subst h
    exact bounds_inv_of_fields rfl rfl hinv
  | hoverLeave =>
    simp only [run, Except.ok.injEq] at h
    subst h
    exact bounds_inv_of_fields rfl rfl hinv
  | del c r =>
    simp only [run, delete_current_image] at h
    split at h
    next hempty =>
      simp only [Except.ok.injEq] at h
      subst h
      exact hinv
    next hnemp =>
      split at h
      next heq => cases h
      next a heq =>
        split at h
        · split at h
          · split at h
            next hempty2 =>
              simp only [Except.ok.injEq] at h
              subst h
              intro hne
              have h0 : s.images.eraseIdx s.current_index = [] :=
                eq_nil_of_isEmpty (by simpa using hempty2)
              exact absurd h0 hne
            next hne2 =>
              split at h
              next e heq2 => cases h
              next s3 heq2 =>
                simp only [Except.ok.injEq] at h
                subst h
                have herase : s.images.eraseIdx s.current_index ≠ [] := by
                  intro h0
                  exact hne2 (by simp [h0])
                split at heq2
                next hcl =>
                  obtain ⟨himg, hcur, _, _, _, _, _⟩ := show_image_ok heq2
                  intro _
                  simp only [populate_grid, populate_list]
                  rw [hcur, himg]
                  show (s.images.eraseIdx s.current_index).length - 1 <
                    (s.images.eraseIdx s.current_index).length
                  exact Nat.sub_lt (List.length_pos.mpr herase) Nat.one_pos
                next hcl =>
                  obtain ⟨himg, hcur, _, _, _, _, _⟩ := show_image_ok heq2
                  intro _
                  simp only [populate_grid, populate_list]
                  rw [hcur, himg]
                  show s.current_index < (s.images.eraseIdx s.current_index).length
                  omega
          · simp only [Except.ok.injEq] at h
            subst h
            exact bounds_inv_of_fields rfl rfl hinv
        · simp only [Except.ok.injEq] at h
          subst h
          exact hinv

/-- C1 witness. -/
theorem C1_bounds_invariant_witness :
    bounds_inv (resultState (run Op.next exTwo)) :=
  C1_bounds_invariant Op.next exTwo (resultState (run Op.next exTwo))
    (fun _ => by decide) (by rfl)

end Galleray
